import Mathlib

/-!
# Verification of the stud-ip-scraper extraction engine

Shallow embedding of the claim-relevant parts of the `stud-ip-scraper`
repository (a Rust client library scraping a Stud.IP portal), together with
proofs settling the frozen claims about it.

Modelling conventions:
* HTML documents are modelled by the projections the parsers actually read
  (an element's id, a link's `href` attribute, an image's `src`, trimmed
  text), never by raw markup.  A selector miss is an `Option.none` field.
* Rust `Result<_, anyhow::Error>` becomes `Except String` (the `String` is
  the `context` message); a Rust panic (`unwrap`/`expect`) becomes
  `Option.none` of the surrounding operation.
* Machine integers (`usize`, `u64`) become `Nat`; overflow of
  `str::parse::<usize>` on astronomically long digit runs is not modelled.
* The HTTP client (`StudIpClient`) is the transport collaborator and is out
  of scope; functions are embedded from the point where the response body
  has been fetched.
-/

namespace StudIp

/-! ## Reference sources and users (src/ref_source.rs, src/user.rs) -/

/-- Rust's `str::trim` (both ends; the ASCII subset of Unicode
`White_Space`, which covers every input at issue). -/
def strTrim (s : String) : String :=
  ⟨((s.data.dropWhile Char.isWhitespace).reverse.dropWhile
      Char.isWhitespace).reverse⟩

/-- Rust's `str::to_lowercase` (ASCII subset). -/
def strToLower (s : String) : String :=
  ⟨s.data.map Char.toLower⟩

/-- Rust's `str::starts_with` on a string pattern. -/
def strStartsWith (s pre : String) : Bool :=
  pre.data.isPrefixOf s.data

/-- `ReferenceSource` from `src/ref_source.rs`: where a piece of data came
from. -/
inductive ReferenceSource where
  | Unspecified
  | StartPage
  | Course (id : String)
  | Profile (username : String)
deriving DecidableEq, Repr

/-- `User` from `src/user.rs`. -/
structure User where
  display_name : String
  username : String
  avatar_src : Option String
  source : ReferenceSource
deriving DecidableEq, Repr

/-! ## A minimal model of `url::Url` as the source consumes it

The source only ever parses an absolute URL and then reads either its query
pairs (`query_pairs`) or its path segments (`path_segments`).  We model just
that: scheme validation, the raw query, and the path split on `/`.
Percent-decoding is modelled for single-byte (ASCII) escapes, which covers
every URL the portal emits; multi-byte UTF-8 escapes are out of scope. -/

/-- Is `c` acceptable in a URL scheme after the first character
(`a-z A-Z 0-9 + - .`)? -/
def isSchemeChar (c : Char) : Bool :=
  c.isAlphanum || c = '+' || c = '-' || c = '.'

/-- Split off a valid RFC 3986 scheme: the characters before the first `':'`,
which must be nonempty, start with a letter and consist of scheme
characters.  Returns the part after the `':'`.  `none` models
`url::ParseError` (`Url::parse` refuses a string with no valid scheme as a
relative URL). -/
def splitScheme (s : List Char) : Option (List Char) :=
  match s.splitOn ':' with
  | [] => none
  | [_] => none
  | sch :: rest =>
    if sch ≠ [] && sch.headI.isAlpha && sch.all isSchemeChar then
      some (List.intercalate [':'] rest)
    else none

/-- Hex digit value of `c`, if any (code points 48–57 are `0-9`, 97–102
are `a-f`, 65–70 are `A-F`). -/
def hexVal (c : Char) : Option Nat :=
  let n := c.toNat
  if 48 ≤ n ∧ n ≤ 57 then some (n - 48)
  else if 97 ≤ n ∧ n ≤ 102 then some (n - 87)
  else if 65 ≤ n ∧ n ≤ 70 then some (n - 55)
  else none

/-- `application/x-www-form-urlencoded` decoding of a query component as
`Url::query_pairs` performs it: `+` is a space, `%hh` (ASCII) is decoded,
everything else is kept. -/
def formUrlDecode : List Char → List Char
  | [] => []
  | '+' :: rest => ' ' :: formUrlDecode rest
  | '%' :: h :: l :: rest =>
    match hexVal h, hexVal l with
    | some hv, some lv => Char.ofNat (16 * hv + lv) :: formUrlDecode rest
    | _, _ => '%' :: formUrlDecode (h :: l :: rest)
  | c :: rest => c :: formUrlDecode rest

/-- The raw query of a URL: the part after the first `'?'` of the part after
the scheme, up to the first `'#'`. -/
def rawQuery (afterScheme : List Char) : List Char :=
  ((afterScheme.dropWhile (· ≠ '?')).drop 1).takeWhile (· ≠ '#')

/-- `Url::query_pairs`: split the raw query on `'&'`, each piece on its
first `'='`, and form-url-decode both sides. -/
def queryPairs (afterScheme : List Char) : List (String × String) :=
  ((rawQuery afterScheme).splitOn '&').filterMap fun piece =>
    if piece = [] then none
    else
      let k := piece.takeWhile (· ≠ '=')
      let v := (piece.dropWhile (· ≠ '=')).drop 1
      some (⟨formUrlDecode k⟩, ⟨formUrlDecode v⟩)

/-- `get_username_from_url` from `src/user.rs`: parse the URL and find the
value of the `username` query parameter. -/
def getUsernameFromUrl (user_url : String) : Except String String :=
  match splitScheme user_url.data with
  | none => .error "relative URL without a base"
  | some rest =>
    match (queryPairs rest).findSome?
        (fun kv => if kv.1 = "username" then some kv.2 else none) with
    | some v => .ok v
    | none => .error "Expected username in user href"

/-- An `<a>` element as the member/news parsers read it: its `href`
attribute, the first nested `<img>` (with its `src` attribute), and its
collected text. -/
structure LinkElem where
  href : Option String
  img : Option (Option String)
  text : String
deriving DecidableEq, Repr

/-- `get_username_from_link_element` from `src/user.rs`. -/
def getUsernameFromLinkElement (link_element : LinkElem) : Except String String :=
  match link_element.href with
  | none => .error "Expected user link href"
  | some h => getUsernameFromUrl h

/-- `parse_simple_user` from `src/user.rs`. -/
def parseSimpleUser (link_element : LinkElem) : Except String User := do
  let username ← getUsernameFromLinkElement link_element
  .ok { display_name := strTrim link_element.text
        username
        avatar_src := none
        source := .Unspecified }

/-! ## Course modules registry (src/course_modules.rs)

`CourseModuleData` carries the course id and the shared client; the client
is the out-of-scope transport and is dropped from the embedding.  A
constructed `Box<dyn CourseModule>` is modelled by the inductive
`CourseModule` below, one constructor per module type defined in the
repository. -/

/-- `CourseModuleData` from `src/course_modules.rs` (without the transport
handle). -/
structure CourseModuleData where
  course_id : String
deriving DecidableEq, Repr

/-- A constructed course module instance (`Box<dyn CourseModule>`).  The
repository defines `FileModule`, `MembersModule` and `OverviewModule`;
custom downstream modules are modelled by `custom` with the registering
name. -/
inductive CourseModule where
  | fileModule (data : CourseModuleData)
  | membersModule (data : CourseModuleData)
  | overviewModule (data : CourseModuleData)
  | custom (name : String) (data : CourseModuleData)
deriving DecidableEq, Repr

/-- `type ModuleConstructor = fn(Arc<CourseModuleData>) -> Box<dyn CourseModule>`. -/
def ModuleConstructor : Type := CourseModuleData → CourseModule

/-- The global registry `COURSE_MODULE_REGISTRY : HashMap<&str, ModuleConstructor>`,
modelled as an association list (insertion order is irrelevant to a hash
map; lookups go through `lookupReg`). -/
def Registry : Type := List (String × ModuleConstructor)

/-- `HashMap::get` on the registry. -/
def lookupReg : Registry → String → Option ModuleConstructor
  | [], _ => none
  | (k, v) :: rest, name => if k = name then some v else lookupReg rest name

/-- `register_course_module::<M>()` from `src/course_modules.rs`:
`registry.insert(M::name(), |data| Box::new(M::new(data)))` —
overwrites the constructor registered under an existing name, otherwise
adds the entry. -/
def registerCourseModule (name : String) (ctor : ModuleConstructor) :
    Registry → Registry
  | [] => [(name, ctor)]
  | (k, v) :: rest =>
    if k = name then (k, ctor) :: rest
    else (k, v) :: registerCourseModule name ctor rest

/-- `register_default_course_modules` from `src/course_modules.rs`:
registers `FileModule` (advertised name `"files"`) and then
`MembersModule` (advertised name `"members"`).  No other module is
registered there. -/
def registerDefaultCourseModules (reg : Registry) : Registry :=
  registerCourseModule "members" (fun data => .membersModule data)
    (registerCourseModule "files" (fun data => .fileModule data) reg)

/-- The process-wide registration state: the `OnceCell`
`REGISTERED_DEFAULT_COURSE_MODULES` (has `register_default_course_modules`
run?) together with the registry contents. -/
structure RegState where
  registered : Bool
  registry : Registry

/-- The state at process start: the `OnceCell` unset, the registry empty. -/
def initRegState : RegState := ⟨false, []⟩

/-- `REGISTERED_DEFAULT_COURSE_MODULES.get_or_init(register_default_course_modules)`
as `Course::query_modules` runs it: if the cell is set, nothing happens;
otherwise the defaults are registered and the cell is set.  The `OnceCell`
guarantees the initializer runs at most once even under concurrent first
calls; sequential composition of the step function is the shallow
rendering of that guarantee. -/
def ensureDefaultsRegistered (s : RegState) : RegState :=
  if s.registered then s else ⟨true, registerDefaultCourseModules s.registry⟩

/-! ## Module discovery (src/course.rs, `Course::query_modules`) -/

/-- The pattern `"nav_course_"` that `query_modules` strips from a tab's
element id. -/
def navCoursePat : List Char := "nav_course_".data

/-- Worker for `removeOcc`: structural recursion on a fuel that bounds the
input length (every step consumes at least one character, so
`removeOcc` always supplies enough). -/
def removeOccAux (pat : List Char) : Nat → List Char → List Char
  | _, [] => []
  | 0, l => l
  | Nat.succ fuel, c :: rest =>
    if pat.isPrefixOf (c :: rest) && !pat.isEmpty then
      removeOccAux pat fuel ((c :: rest).drop pat.length)
    else c :: removeOccAux pat fuel rest

/-- Remove every occurrence of `pat` (non-overlapping, left to right):
Rust's `str::replace(pat, "")`.  For the empty pattern the string is
returned unchanged (the sources only use nonempty patterns). -/
def removeOcc (pat : List Char) (l : List Char) : List Char :=
  removeOccAux pat l.length l

/-- `tab.id().unwrap().replace("nav_course_", "")`: the module name derived
from a tab's element id. -/
def deriveModuleName (tabId : String) : String :=
  ⟨removeOcc navCoursePat tabId.data⟩

/-- The discovery loop of `Course::query_modules` (src/course.rs lines
79–84): for each `#tabs li` element (modelled by its id attribute), derive
the module name, look it up in the registry, and construct the module on a
hit; misses are silently skipped. -/
def queryModulesDiscover (reg : Registry) (data : CourseModuleData)
    (tabIds : List String) : List CourseModule :=
  tabIds.filterMap fun tabId =>
    (lookupReg reg (deriveModuleName tabId)).map fun ctor => ctor data

/-- The claim-relevant projection of `Course` from `src/course.rs`: its id
and its `modules` field (`#[serde(skip)]`, so deserialization leaves it at
`Vec::default()`). -/
structure Course where
  id : String
  modules : List CourseModule

/-- A `Course` as `MyCourses::query` materializes it: `modules` is the
serde-skipped default, the empty sequence. -/
def mkCourse (id : String) : Course := ⟨id, []⟩

/-- `Course::query_modules` (src/course.rs lines 67–86) as a step on the
pair (global registration state, course): ensure the defaults are
registered, then replace `self.modules` with the discovery result over the
fetched tab ids. -/
def queryModules (g : RegState) (c : Course) (tabIds : List String) :
    RegState × Course :=
  let g' := ensureDefaultsRegistered g
  (g', { c with modules := queryModulesDiscover g'.registry ⟨c.id⟩ tabIds })

/-! ## Members module (src/course_modules/members.rs) -/

/-- A `tbody tr` of a member table as `parse_member_table` reads it: the
first `td a` element, if any. -/
structure MemberRow where
  mainA : Option LinkElem
deriving DecidableEq, Repr

/-- The row rule of `parse_member_table` (src/course_modules/members.rs
lines 200–212): the first `td a` link, the username from its href, the
first nested `<img>` and its `src`, the trimmed link text; any miss makes
the row yield no record (`filter_map`). -/
def parseMemberRow (reference_source : ReferenceSource) (row : MemberRow) :
    Option User := do
  let mainA ← row.mainA
  let username ← (getUsernameFromLinkElement mainA).toOption
  let avatarImg ← mainA.img
  let avatarSrc ← avatarImg
  some { display_name := strTrim mainA.text
         username
         avatar_src := some avatarSrc
         source := reference_source }

/-- A member table: its `caption` text (if any) and its `tbody tr` rows. -/
structure MemberTable where
  caption : Option String
  rows : List MemberRow
deriving DecidableEq, Repr

/-- `parse_member_table` from `src/course_modules/members.rs`: the
lower-cased trimmed caption, and the users of the rows that parse, in row
order. -/
def parseMemberTable (table : MemberTable) (reference_source : ReferenceSource) :
    Option String × List User :=
  (table.caption.map fun c => strToLower (strTrim c),
   table.rows.filterMap (parseMemberRow reference_source))

/-- `Group` from `src/course_modules/members.rs`.  The `enables_entry_at`
field is omitted from the embedding: its value is obtained by interpreting
a parsed wall-clock date in the process-local time zone
(`and_local_timezone(chrono::Local)`), which depends on the runtime
environment and is outside a shallow embedding; no claim mentions it. -/
structure Group where
  name : String
  id : String
  entered : Bool
  members : Nat
  max_members : Nat
deriving DecidableEq, Repr

/-- A `div#content article > header` block of the group-management page as
`get_groups` reads it: the text of its first `h1` (if one exists), whether
a leave icon (`a > img.icon-shape-door-leave`) is present, and — when an
info icon (`a > img.icon-shape-info-circle`) is present — the `href` of
that icon's parent link (`none` on the outer option = no info icon,
`some none` = icon present but its parent has no `href`). -/
structure GroupHeader where
  h1Text : Option String
  hasLeaveIcon : Bool
  infoHref : Option (Option String)
deriving DecidableEq, Repr

/-- The counts part of the group-name pattern: match
`(?P<members>\d+)(/(?P<max_members>\d+))?\)` against `s` (the text after
`" ("`), returning the digit captures.  The optional group is greedy; if
it cannot match, `)` must follow the member digits directly. -/
def matchGroupCounts (s : List Char) : Option (List Char × Option (List Char)) :=
  let ds := s.takeWhile Char.isDigit
  let rest := s.dropWhile Char.isDigit
  if ds = [] then none
  else
    match rest with
    | ')' :: _ => some (ds, none)
    | '/' :: r2 =>
      let ds2 := r2.takeWhile Char.isDigit
      let r3 := r2.dropWhile Char.isDigit
      if ds2 ≠ [] then
        match r3 with
        | ')' :: _ => some (ds, some ds2)
        | _ => none
      else none
    | _ => none

/-- One attempt of the group-name regex
`(?P<name>.+) \((?P<members>\d+)(/(?P<max_members>\d+))?\)` at a fixed
start position (the head of `s`): `.+` is greedy, so the longest nonempty
newline-free prefix followed by `" ("` and a counts match wins. -/
def matchGroupNameAt (s : List Char) :
    Option (List Char × List Char × Option (List Char)) :=
  (List.range (s.length + 1)).reverse.findSome? fun i =>
    if 1 ≤ i then
      let name := s.take i
      if name.all (· ≠ '\n') then
        match s.drop i with
        | ' ' :: '(' :: rest =>
          (matchGroupCounts rest).map fun mm => (name, mm.1, mm.2)
        | _ => none
      else none
    else none

/-- `Regex::captures` for the group-name pattern: leftmost-first — the
earliest start position admitting a match wins, and at that position `.+`
is greedy. -/
def groupNameCaptures (s : List Char) :
    Option (List Char × List Char × Option (List Char)) :=
  (List.range (s.length + 1)).findSome? fun start => matchGroupNameAt (s.drop start)

/-- `str::parse::<usize>` on a capture of `\d+`: the value of a nonempty
digit run (overflow not modelled). -/
def digitsToNat (ds : List Char) : Nat :=
  ds.foldl (fun n c => n * 10 + (c.toNat - '0'.toNat)) 0

/-- `str::parse::<usize>` as the number-parsing call sites invoke it: an
optional `+`, then a nonempty ASCII digit run (overflow not modelled). -/
def parseUsize (s : String) : Except String Nat :=
  let ds := match s.data with
    | '+' :: rest => rest
    | other => other
  if ds ≠ [] && ds.all Char.isDigit then .ok (digitsToNat ds)
  else .error "invalid digit found in string"

/-- `Url::path_segments`: `some` iff the URL has an authority (`//` right
after the scheme); the path (up to `?` or `#`, without the leading `/`)
split on `/`. -/
def pathSegments (afterScheme : List Char) : Option (List (List Char)) :=
  match afterScheme with
  | '/' :: '/' :: rest =>
    let afterAuthority := rest.dropWhile fun c => c ≠ '/' && c ≠ '?' && c ≠ '#'
    match afterAuthority with
    | '/' :: path =>
      some ((path.takeWhile fun c => c ≠ '?' && c ≠ '#').splitOn '/')
    | _ => some [[]]
  | _ => none

/-- The group-id extraction of `get_groups` (src/course_modules/members.rs
lines 99–102): parse the info link's href and take the last path segment.
Every step `unwrap`s, so any failure is a panic (`none`). -/
def groupIdFromHref (href : String) : Option String := do
  let rest ← splitScheme href.data
  let segs ← pathSegments rest
  let last ← segs.getLast?
  some ⟨last⟩

/-- One iteration of the `get_groups` loop (src/course_modules/members.rs
lines 72–127) over a header block.  `none` models a panic: the `h1`
selector, the regex captures, the info link's `href`, the URL parse and
the last path segment are all `unwrap`ed in the source, so a malformed
header aborts the whole call rather than being skipped. -/
def parseGroupHeader (h : GroupHeader) : Option Group := do
  let raw ← h.h1Text
  let rawName := strTrim raw
  let caps ← groupNameCaptures rawName.data
  let name : String := ⟨caps.1⟩
  let members := digitsToNat caps.2.1
  let max_members := (caps.2.2.map digitsToNat).getD 0
  let id ← match h.infoHref with
    | none => some "nogroup"
    | some none => none
    | some (some href) => groupIdFromHref href
  some { name, id, entered := h.hasLeaveIcon, members, max_members }

/-- `MembersModule::get_groups` over the fetched header blocks: every
header must parse (a panic anywhere aborts the whole call with no
result). -/
def getGroups : List GroupHeader → Option (List Group)
  | [] => some []
  | h :: rest => do
    let g ← parseGroupHeader h
    let gs ← getGroups rest
    pure (g :: gs)

/-! ## Overview module (src/course_modules/overview.rs)

`overview.rs` exists in the repository but is not declared in the
`course_modules` module tree (`course_modules.rs` declares only `file` and
`members`), so it is dead code; it is embedded here because the spec's
error-handling sentence names the "info table" of its
`get_course_details` as a structural anchor.  The localized-label lookup
(`local_to_key`, backed by an embedded CSV that is outside the extraction
engine per the spec) is taken as an injected function parameter. -/

/-- `Institute` from `src/institute.rs`. -/
structure Institute where
  id : String
  name : String
deriving DecidableEq, Repr

/-- `parse_institute_link` from `src/institute.rs`: trimmed link text as
the name, the `auswahl`/`selection` query parameter of the parsed href as
the id. -/
def parseInstituteLink (element : LinkElem) : Except String Institute := do
  let name := strTrim element.text
  let href ← match element.href with
    | none => throw "Expected institute href"
    | some h => pure h
  let rest ← match splitScheme href.data with
    | none => throw "relative URL without a base"
    | some r => pure r
  let id ← match (queryPairs rest).findSome?
      (fun kv => if kv.1 = "auswahl" ∨ kv.1 = "selection" then some kv.2
                 else none) with
    | none => throw "Expected institute id"
    | some v => pure v
  .ok { id, name }

/-- `CourseDetails` from `src/course_modules/overview.rs` (`u64`/`u32`
counts as `Nat`). -/
structure CourseDetails where
  name : String
  subtitle : String
  course_number : Option Nat
  semester : String
  participants : Nat
  home_institute : Option Institute
  participating_institutes : List Institute
  course_type : String
  first_date : Option String
  type_form : String
  language : Option String
  sws : Option Nat
  ects_points : Option Nat
  description : String
deriving DecidableEq, Repr

/-- The derived `Default` of `CourseDetails`. -/
def courseDetailsDefault : CourseDetails :=
  ⟨"", "", none, "", 0, none, [], "", none, "", none, none, none, ""⟩

/-- A `td` cell of the `#tablefix` info table as `get_course_details`
reads it: its collected text and its `<a>` elements. -/
structure InfoCell where
  text : String
  links : List LinkElem
deriving DecidableEq, Repr

/-- The course-details page as `get_course_details` reads it: the `td`
cells of the info table in document order (an absent table simply yields
no cells), and the inner markup of the first `.formatted-content`
element, if any. -/
structure DetailsPage where
  cells : List InfoCell
  description : Option String
deriving DecidableEq, Repr

/-- `Itertools::tuples::<(_, _)>`: consecutive pairs, dropping a trailing
odd element. -/
def tuplesPairs {α : Type} : List α → List (α × α)
  | a :: b :: rest => (a, b) :: tuplesPairs rest
  | _ => []

/-- One iteration of the `get_course_details` info-table loop
(src/course_modules/overview.rs lines 89–119): translate the key cell's
text through the injected localization lookup and dispatch on the stable
key; unparseable numbers and institute links raise the `context` errors
of the source; an unrecognized key is logged and ignored. -/
def applyCourseDetailCell (localToKey : String → String)
    (details : CourseDetails) (cells : InfoCell × InfoCell) :
    Except String CourseDetails :=
  let key := localToKey cells.1.text
  let text_value := strTrim cells.2.text
  match key with
  | "COURSE_NAME" => .ok { details with name := text_value }
  | "SUBTITLE" => .ok { details with subtitle := text_value }
  | "COURSE_NUMBER" =>
    match parseUsize text_value with
    | .error _ => .error "Could not parse course number"
    | .ok n => .ok { details with course_number := some n }
  | "SEMESTER" => .ok { details with semester := text_value }
  | "NUMBER_OF_PARTICIPANTS" =>
    match parseUsize text_value with
    | .error _ => .error "Could not parse number of participants"
    | .ok n => .ok { details with participants := n }
  | "HOME_INSTITUTE" => do
    let linkElem ← match cells.2.links.head? with
      | none => throw "Expected home institute link"
      | some l => pure l
    let institute ← (parseInstituteLink linkElem).mapError
      fun _ => "Could not parse institute link"
    .ok { details with home_institute := some institute }
  | "PARTICIPATING_INSTITUTES" => do
    let institutes ← cells.2.links.mapM fun linkElem =>
      (parseInstituteLink linkElem).mapError
        fun _ => "Could not parse institute link"
    .ok { details with participating_institutes :=
            details.participating_institutes ++ institutes }
  | "COURSE_TYPE" => .ok { details with course_type := text_value }
  | "FIRST_DATE" => .ok { details with first_date := some text_value }
  | "TYPE_FORM" => .ok { details with type_form := text_value }
  | "LANGUAGE" => .ok { details with language := some text_value }
  | "SWS" =>
    match parseUsize text_value with
    | .error _ => .error "Could not parse SWS"
    | .ok n => .ok { details with sws := some n }
  | "ECTS_POINTS" =>
    match parseUsize text_value with
    | .error _ => .error "Could not parse ECTS points"
    | .ok n => .ok { details with ects_points := some n }
  | _ => .ok details

/-- `OverviewModule::get_course_details` (src/course_modules/overview.rs
lines 80–126) from the fetched page: fold the info-table cell pairs over
a default `CourseDetails`, then take the description from the single
formatted-content element, defaulting to empty if absent.  A missing info
table yields no cells, so the fold returns the defaults — it is not an
error. -/
def getCourseDetails (localToKey : String → String) (page : DetailsPage) :
    Except String CourseDetails := do
  let details ← (tuplesPairs page.cells).foldlM
    (applyCourseDetailCell localToKey) courseDetailsDefault
  .ok (match page.description with
       | some html => { details with description := html }
       | none => details)

/-! ## A model of JSON and of `serde_json::from_str`

The file module stores its listings as JSON text inside two HTML
attributes; `serde_json::from_str` both tokenizes the text and decodes it
into the wire structs.  We embed a JSON value type, a recursive-descent
parser for it, and the derived serde decoders.  Deviations, none of which
any claim touches: floating-point numbers and exponent notation are
rejected rather than parsed; duplicate object keys are resolved to the
first occurrence instead of raising `duplicate field`; decoders check
fields in declaration order rather than input order, so which of several
errors is reported can differ; serde's error messages are abbreviated. -/

inductive Json where
  | null
  | bool (b : Bool)
  | num (n : Int)
  | str (s : String)
  | arr (elems : List Json)
  | obj (fields : List (String × Json))
deriving Repr

/-- The character `{` (written by code point to keep brace characters out
of literals). -/
def braceOpen : Char := Char.ofNat 123

/-- The character `}`. -/
def braceClose : Char := Char.ofNat 125

/-- Skip JSON whitespace. -/
def skipWs (s : List Char) : List Char :=
  s.dropWhile fun c => c = ' ' || c = '\t' || c = '\n' || c = '\r'

/-- Worker for `parseStringBody`, structurally recursive on a fuel that
bounds the input length. -/
def parseStringBodyAux : Nat → List Char → Except String (List Char × List Char)
  | _, [] => .error "EOF while parsing a string"
  | 0, _ => .error "recursion limit exceeded"
  | Nat.succ fuel, c :: rest =>
    if c = '"' then .ok ([], rest)
    else if c = '\\' then
      match rest with
      | [] => .error "EOF while parsing a string"
      | e :: rest2 =>
        if e = 'u' then
          match rest2 with
          | h1 :: h2 :: h3 :: h4 :: rest3 =>
            match hexVal h1, hexVal h2, hexVal h3, hexVal h4 with
            | some a, some b, some c3, some d =>
              (parseStringBodyAux fuel rest3).map fun p =>
                (Char.ofNat (4096 * a + 256 * b + 16 * c3 + d) :: p.1, p.2)
            | _, _, _, _ => .error "invalid escape"
          | _ => .error "EOF while parsing a string"
        else
          match
            (if e = '"' then some '"'
             else if e = '\\' then some '\\'
             else if e = '/' then some '/'
             else if e = 'b' then some (Char.ofNat 8)
             else if e = 'f' then some (Char.ofNat 12)
             else if e = 'n' then some '\n'
             else if e = 'r' then some '\r'
             else if e = 't' then some '\t'
             else none : Option Char)
          with
          | some d => (parseStringBodyAux fuel rest2).map fun p => (d :: p.1, p.2)
          | none => .error "invalid escape"
    else (parseStringBodyAux fuel rest).map fun p => (c :: p.1, p.2)

/-- The body of a JSON string (after the opening quote): the decoded
characters and the rest of the input after the closing quote.  Handles the
JSON escapes; a `\uXXXX` escape outside the valid scalar range decodes to
`Char.ofNat`'s default. -/
def parseStringBody (s : List Char) : Except String (List Char × List Char) :=
  parseStringBodyAux s.length s

/-- A JSON number token: optional minus, a digit run with no redundant
leading zero; fraction and exponent forms are not modelled (no wire field
uses them). -/
def parseJsonNumber (s : List Char) : Except String (Int × List Char) :=
  let (neg, s') := match s with
    | '-' :: rest => (true, rest)
    | _ => (false, s)
  let ds := s'.takeWhile Char.isDigit
  let rest := s'.dropWhile Char.isDigit
  if ds = [] then .error "expected value"
  else if ds.length > 1 && ds.headI = '0' then .error "invalid number"
  else
    match rest with
    | '.' :: _ => .error "number format not modelled"
    | 'e' :: _ => .error "number format not modelled"
    | 'E' :: _ => .error "number format not modelled"
    | _ => .ok (if neg then -(digitsToNat ds : Int) else (digitsToNat ds : Int), rest)

mutual

/-- One JSON value at the head of the input (whitespace allowed), returning
it and the remaining input.  The fuel argument only bounds recursion depth;
`parseJson` supplies more than any input can consume. -/
def parseJsonValue : Nat → List Char → Except String (Json × List Char)
  | 0, _ => .error "recursion limit exceeded"
  | Nat.succ fuel, s =>
    match skipWs s with
    | [] => .error "EOF while parsing a value"
    | c :: rest =>
      if c = '"' then (parseStringBody rest).map fun p => (.str ⟨p.1⟩, p.2)
      else if c = '[' then
        match skipWs rest with
        | ']' :: rest2 => .ok (.arr [], rest2)
        | _ => (parseJsonItems fuel rest).map fun p => (.arr p.1, p.2)
      else if c = braceOpen then
        match skipWs rest with
        | c2 :: rest2 =>
          if c2 = braceClose then .ok (.obj [], rest2)
          else (parseJsonMembers fuel (c2 :: rest2)).map fun p => (.obj p.1, p.2)
        | [] => .error "EOF while parsing an object"
      else if c = 'n' then
        match rest with
        | 'u' :: 'l' :: 'l' :: rest2 => .ok (.null, rest2)
        | _ => .error "expected value"
      else if c = 't' then
        match rest with
        | 'r' :: 'u' :: 'e' :: rest2 => .ok (.bool true, rest2)
        | _ => .error "expected value"
      else if c = 'f' then
        match rest with
        | 'a' :: 'l' :: 's' :: 'e' :: rest2 => .ok (.bool false, rest2)
        | _ => .error "expected value"
      else (parseJsonNumber (c :: rest)).map fun p => (.num p.1, p.2)

/-- The items of a JSON array after the opening bracket (nonempty case). -/
def parseJsonItems : Nat → List Char → Except String (List Json × List Char)
  | 0, _ => .error "recursion limit exceeded"
  | Nat.succ fuel, s => do
    let (v, rest) ← parseJsonValue fuel s
    match skipWs rest with
    | ',' :: rest2 =>
      (parseJsonItems fuel rest2).map fun p => (v :: p.1, p.2)
    | ']' :: rest2 => .ok ([v], rest2)
    | _ => .error "expected comma or end of array"

/-- The members of a JSON object after the opening brace (nonempty case). -/
def parseJsonMembers : Nat → List Char → Except String (List (String × Json) × List Char)
  | 0, _ => .error "recursion limit exceeded"
  | Nat.succ fuel, s =>
    match skipWs s with
    | c :: rest =>
      if c = '"' then do
        let (key, rest2) ← parseStringBody rest
        match skipWs rest2 with
        | ':' :: rest3 => do
          let (v, rest4) ← parseJsonValue fuel rest3
          match skipWs rest4 with
          | ',' :: rest5 =>
            (parseJsonMembers fuel rest5).map fun p => ((⟨key⟩, v) :: p.1, p.2)
          | c2 :: rest5 =>
            if c2 = braceClose then .ok ([(⟨key⟩, v)], rest5)
            else .error "expected comma or end of object"
          | [] => .error "EOF while parsing an object"
        | _ => .error "expected colon"
      else .error "key must be a string"
    | [] => .error "EOF while parsing an object"

end

/-- `serde_json`'s tokenizer: parse one JSON value and require only
whitespace after it. -/
def parseJson (text : String) : Except String Json :=
  match parseJsonValue (2 * text.data.length + 2) text.data with
  | .error e => .error e
  | .ok (v, rest) =>
    if skipWs rest = [] then .ok v else .error "trailing characters"

/-- First binding of `key` among an object's fields. -/
def jsonGet (fields : List (String × Json)) (key : String) : Option Json :=
  fields.findSome? fun kv => if kv.1 = key then some kv.2 else none

/-- A required string field (serde: missing field / invalid type errors). -/
def reqStringField (fields : List (String × Json)) (key : String) :
    Except String String :=
  match jsonGet fields key with
  | none => .error ("missing field " ++ key)
  | some (.str s) => .ok s
  | some _ => .error ("invalid type for field " ++ key ++ ", expected a string")

/-- A required boolean field. -/
def reqBoolField (fields : List (String × Json)) (key : String) :
    Except String Bool :=
  match jsonGet fields key with
  | none => .error ("missing field " ++ key)
  | some (.bool b) => .ok b
  | some _ => .error ("invalid type for field " ++ key ++ ", expected a boolean")

/-- A required integer field (`chrono::serde::ts_seconds` reads an `i64`). -/
def reqIntField (fields : List (String × Json)) (key : String) :
    Except String Int :=
  match jsonGet fields key with
  | none => .error ("missing field " ++ key)
  | some (.num n) => .ok n
  | some _ => .error ("invalid type for field " ++ key ++ ", expected an integer")

/-- A required unsigned-integer field: serde decodes a `usize` from a JSON
integer and rejects a negative one with an invalid-value error. -/
def reqUsizeField (fields : List (String × Json)) (key : String) :
    Except String Nat :=
  match jsonGet fields key with
  | none => .error ("missing field " ++ key)
  | some (.num n) =>
    if n < 0 then
      .error ("invalid value for field " ++ key ++ ", expected an unsigned integer")
    else .ok n.toNat
  | some _ => .error ("invalid type for field " ++ key ++ ", expected an integer")

/-- A required array field (`Vec<serde_json::Value>` keeps raw values). -/
def reqArrField (fields : List (String × Json)) (key : String) :
    Except String (List Json) :=
  match jsonGet fields key with
  | none => .error ("missing field " ++ key)
  | some (.arr xs) => .ok xs
  | some _ => .error ("invalid type for field " ++ key ++ ", expected a sequence")

/-- An `Option<String>` field: serde defaults a missing `Option` field to
`None` and reads `null` as `None`. -/
def optStringField (fields : List (String × Json)) (key : String) :
    Except String (Option String) :=
  match jsonGet fields key with
  | none => .ok none
  | some .null => .ok none
  | some (.str s) => .ok (some s)
  | some _ => .error ("invalid type for field " ++ key ++ ", expected a string")

/-! ## Files module (src/course_modules/file.rs) -/

/-- The wire record `TheirFile` (src/course_modules/file.rs lines 170–200).
`chdate` is the `ts_seconds` unix timestamp. -/
structure TheirFile where
  id : String
  name : String
  download_url : Option String
  downloads : Nat
  mime_type : String
  icon : String
  size : Nat
  author_url : String
  author_name : String
  author_id : String
  chdate : Int
  additional_columns : List Json
  details_url : String
  restricted_terms_of_use : Bool
  actions : String
  new : Bool
  is_editable : Bool
  is_accessible : Bool
deriving Repr

/-- The derived deserializer of `TheirFile`: `rename_all = "camelCase"`
combined with the per-field `rename` attributes gives the JSON keys used
below; `downloads` and `size` are strings parsed with `from_str`. -/
def decodeTheirFile (j : Json) : Except String TheirFile :=
  match j with
  | .obj fields => do
    let id ← reqStringField fields "id"
    let name ← reqStringField fields "name"
    let download_url ← optStringField fields "download_url"
    let downloadsStr ← reqStringField fields "downloads"
    let downloads ← parseUsize downloadsStr
    let mime_type ← reqStringField fields "mime_type"
    let icon ← reqStringField fields "icon"
    let sizeStr ← reqStringField fields "size"
    let size ← parseUsize sizeStr
    let author_url ← reqStringField fields "author_url"
    let author_name ← reqStringField fields "author_name"
    let author_id ← reqStringField fields "author_id"
    let chdate ← reqIntField fields "chdate"
    let additional_columns ← reqArrField fields "additionalColumns"
    let details_url ← reqStringField fields "details_url"
    let restricted_terms_of_use ← reqBoolField fields "restrictedTermsOfUse"
    let actions ← reqStringField fields "actions"
    let new ← reqBoolField fields "new"
    let is_editable ← reqBoolField fields "isEditable"
    let is_accessible ← reqBoolField fields "isAccessible"
    .ok { id, name, download_url, downloads, mime_type, icon, size,
          author_url, author_name, author_id, chdate, additional_columns,
          details_url, restricted_terms_of_use, actions, new, is_editable,
          is_accessible }
  | _ => .error "invalid type, expected a map"

/-- `Vec<TheirFile>` deserialization. -/
def decodeTheirFiles (j : Json) : Except String (List TheirFile) :=
  match j with
  | .arr xs => xs.mapM decodeTheirFile
  | _ => .error "invalid type, expected a sequence"

/-- The wire record `TheirFolder` (src/course_modules/file.rs lines
226–248). -/
structure TheirFolder where
  id : String
  icon : String
  name : String
  url : String
  user_id : String
  object_count : Nat
  author_name : String
  author_url : String
  chdate : Int
  actions : String
  mime_type : String
  permissions : String
  additional_columns : List Json
deriving Repr

/-- The derived deserializer of `TheirFolder`.  Note `object_count` is a
plain JSON number here (no `from_str` attribute); being a `usize`, a
negative integer is an invalid-value decode error. -/
def decodeTheirFolder (j : Json) : Except String TheirFolder :=
  match j with
  | .obj fields => do
    let id ← reqStringField fields "id"
    let icon ← reqStringField fields "icon"
    let name ← reqStringField fields "name"
    let url ← reqStringField fields "url"
    let user_id ← reqStringField fields "user_id"
    let object_count ← reqUsizeField fields "object_count"
    let author_name ← reqStringField fields "author_name"
    let author_url ← reqStringField fields "author_url"
    let chdate ← reqIntField fields "chdate"
    let actions ← reqStringField fields "actions"
    let mime_type ← reqStringField fields "mime_type"
    let permissions ← reqStringField fields "permissions"
    let additional_columns ← reqArrField fields "additionalColumns"
    .ok { id, icon, name, url, user_id, object_count, author_name,
          author_url, chdate, actions, mime_type, permissions,
          additional_columns }
  | _ => .error "invalid type, expected a map"

/-- `Vec<TheirFolder>` deserialization. -/
def decodeTheirFolders (j : Json) : Except String (List TheirFolder) :=
  match j with
  | .arr xs => xs.mapM decodeTheirFolder
  | _ => .error "invalid type, expected a sequence"

/-- `FilesObject` from `src/course_modules/file.rs` (`change_date` is the
unix timestamp of the `DateTime<Utc>`). -/
structure FilesObject where
  id : String
  name : String
  change_date : Int
  author : User
  icon : String
  mime_type : String
deriving DecidableEq, Repr

/-- `File` from `src/course_modules/file.rs`. -/
structure File where
  object : FilesObject
  size : Nat
  downloads : Nat
  restricted_terms_of_use : Bool
  new : Bool
  is_editable : Bool
  is_accessible : Bool
deriving DecidableEq, Repr

/-- `Folder` from `src/course_modules/file.rs`. -/
structure Folder where
  object : FilesObject
  object_count : Nat
  permissions : String
deriving DecidableEq, Repr

/-- `FolderContents` from `src/course_modules/file.rs`. -/
structure FolderContents where
  folders : List Folder
  files : List File
deriving DecidableEq, Repr

/-- `try_file_from_their` (src/course_modules/file.rs lines 202–224). -/
def tryFileFromTheir (their : TheirFile) (course_id : String) :
    Except String File := do
  let username ← getUsernameFromUrl their.author_url
  .ok { object := { id := their.id
                    name := their.name
                    change_date := their.chdate
                    author := { display_name := their.author_name
                                username
                                avatar_src := none
                                source := .Course course_id }
                    icon := their.icon
                    mime_type := their.mime_type }
        size := their.size
        downloads := their.downloads
        restricted_terms_of_use := their.restricted_terms_of_use
        new := their.new
        is_editable := their.is_editable
        is_accessible := their.is_accessible }

/-- `try_folder_from_their` (src/course_modules/file.rs lines 250–268). -/
def tryFolderFromTheir (their : TheirFolder) (course_id : String) :
    Except String Folder := do
  let username ← getUsernameFromUrl their.author_url
  .ok { object := { id := their.id
                    name := their.name
                    change_date := their.chdate
                    author := { display_name := their.author_name
                                username
                                avatar_src := none
                                source := .Course course_id }
                    icon := their.icon
                    mime_type := their.mime_type }
        object_count := their.object_count
        permissions := their.permissions }

/-- The error taxonomy of the spec: the source raises `anyhow` errors whose
category is determined by the construction site — a `context` message on a
missing structural element is a missing-data condition, a serde/parse
failure a malformed-data condition. -/
inductive ScrapeError where
  | missingData (msg : String)
  | malformedData (msg : String)
deriving DecidableEq, Repr

/-- The `#files_table_form` element of a folder-listing page: its
`data-files` and `data-folders` attributes, if present. -/
structure FilesForm where
  dataFiles : Option String
  dataFolders : Option String
deriving DecidableEq, Repr

/-- A folder-listing page as `parse_into_folder_contents` reads it: the
`#files_table_form` element, if present. -/
structure FilesPage where
  filesForm : Option FilesForm
deriving DecidableEq, Repr

/-- `FileModule::parse_into_folder_contents` (src/course_modules/file.rs
lines 41–62), shared by `get_root` and `get_folder`: locate the form,
read both attributes, `serde_json`-decode each payload (files first, as in
the source), then convert folders and files in struct-literal order. -/
def parseIntoFolderContents (course_id : String) (page : FilesPage) :
    Except ScrapeError FolderContents := do
  let form ← match page.filesForm with
    | none => throw (ScrapeError.missingData "Could not find files table form")
    | some f => pure f
  let dataFiles ← match form.dataFiles with
    | none => throw (ScrapeError.missingData "Could not get files")
    | some t => pure t
  let dataFolders ← match form.dataFolders with
    | none => throw (ScrapeError.missingData "Could not get folders")
    | some t => pure t
  let theirFiles ← (parseJson dataFiles >>= decodeTheirFiles).mapError
    ScrapeError.malformedData
  let theirFolders ← (parseJson dataFolders >>= decodeTheirFolders).mapError
    ScrapeError.malformedData
  let folders ← (theirFolders.mapM fun f => tryFolderFromTheir f course_id).mapError
    ScrapeError.malformedData
  let files ← (theirFiles.mapM fun f => tryFileFromTheir f course_id).mapError
    ScrapeError.malformedData
  pure { folders, files }

/-! ## News comments (src/news.rs, `NewsArticle::query_comments`) -/

/-- `NewsComment` from `src/news.rs`. -/
structure NewsComment where
  id : String
  author : User
  html_content : String
  time_since_string : String
deriving DecidableEq, Repr

/-- The claim-relevant projection of `NewsArticle` from `src/news.rs`: its
id, its comment count and its comments.  The other fields (title, author,
date, visits, …) are neither read nor written by `query_comments`. -/
structure NewsArticle where
  id : String
  n_comments : Nat
  comments : List NewsComment
deriving DecidableEq, Repr

/-- A `.comments .comment` element of the re-fetched article as
`query_comments` reads it: its `id` attribute, the text of its first
`<time>`, its first `h1 > a` author link, and the inner markup of its
first `.formatted-content`. -/
structure CommentElem where
  idAttr : Option String
  timeText : Option String
  authorLink : Option LinkElem
  contentHtml : Option String
deriving DecidableEq, Repr

/-- The pattern `"newscomment-"` stripped from a comment element's id. -/
def newscommentPat : List Char := "newscomment-".data

/-- The per-element body of the `query_comments` loop (src/news.rs lines
75–108): each `context`ed miss aborts the whole call with an error. -/
def parseCommentElem (el : CommentElem) : Except String NewsComment := do
  let rawId ← match el.idAttr with
    | none => throw "Expected comment id"
    | some v => pure v
  let commentId : String := ⟨removeOcc newscommentPat rawId.data⟩
  let timeSince ← match el.timeText with
    | none => throw "Expected comment time"
    | some t => pure (strTrim t)
  let authorLink ← match el.authorLink with
    | none => throw "Expected comment author a tag"
    | some a => pure a
  let author ← parseSimpleUser authorLink
  let contentHtml ← match el.contentHtml with
    | none => throw "Expected comment content"
    | some h => pure h
  .ok { id := commentId, author, html_content := contentHtml
        time_since_string := timeSince }

/-- `NewsArticle::query_comments` from the point where the comment elements
have been selected: the source re-creates `new_comments` inside the loop,
so each iteration overwrites `comments` with the one comment it just
parsed and sets `n_comments` to 1; with no elements the fields are left
untouched. -/
def queryComments (article : NewsArticle) (elems : List CommentElem) :
    Except String NewsArticle :=
  elems.foldlM
    (fun art el => do
      let c ← parseCommentElem el
      pure { art with n_comments := 1, comments := [c] })
    article

/-! ## Global search (src/search.rs) -/

/-- `FilterSemester` from `src/search.rs`. -/
inductive FilterSemester where
  | All
  | Future
  | Specific (unix_timestamp : Nat)
deriving DecidableEq, Repr

/-- The custom `Serialize` impl of `FilterSemester`: `All` is the empty
string, `Future` is `"future"`, `Specific` the decimal timestamp. -/
def serializeFilterSemester : FilterSemester → String
  | .All => ""
  | .Future => "future"
  | .Specific ts => toString ts

/-- `SearchFilter` from `src/search.rs`. -/
inductive SearchFilter where
  | AllCat (semester : FilterSemester)
  | Courses (semester : FilterSemester) (seminar_type_id : Option String)
      (institute_id : Option String)
  | Users
  | Institutions
  | Messages
deriving DecidableEq, Repr

/-- The entries the custom `Serialize` impl of `SearchFilter` writes into
the map serializer, in source order. -/
def searchFilterEntries : SearchFilter → List (String × String)
  | .AllCat semester =>
    [("category", "show_all_categories"),
     ("semester", serializeFilterSemester semester)]
  | .Courses semester seminar_type_id institute_id =>
    [("category", "GlobalSearchCourses"),
     ("semester", serializeFilterSemester semester)]
    ++ (match seminar_type_id with
        | some seminarType => [("seminar_type", seminarType)]
        | none => [])
    ++ (match institute_id with
        | some institute => [("institute", institute)]
        | none => [])
  | .Users => [("category", "GlobalSearchUsers")]
  | .Institutions => [("category", "GlobalSearchInstitutes")]
  | .Messages => [("category", "GlobalSearchMessages")]

/-- `serde_json`'s escaping of a string value (claim-relevant subset: the
quote, backslash and the C0 control characters; the inputs at issue
contain none). -/
def jsonEscapeChar (c : Char) : List Char :=
  if c = '"' then ['\\', '"']
  else if c = '\\' then ['\\', '\\']
  else if c = '\n' then ['\\', 'n']
  else if c = '\r' then ['\\', 'r']
  else if c = '\t' then ['\\', 't']
  else if c.toNat < 32 then
    let hi := c.toNat / 16
    let lo := c.toNat % 16
    let hexDigit := fun n => if n < 10 then Char.ofNat ('0'.toNat + n)
      else Char.ofNat ('a'.toNat + n - 10)
    ['\\', 'u', '0', '0', hexDigit hi, hexDigit lo]
  else [c]

/-- A JSON string literal for `s`. -/
def jsonStringLit (s : String) : List Char :=
  '"' :: s.data.flatMap jsonEscapeChar ++ ['"']

/-- `serde_json::to_string` of a map with string values, entries in
insertion order (what `SearchFilter::serialize` produces through
`serialize_map`). -/
def serializeStringMap (entries : List (String × String)) : String :=
  ⟨braceOpen ::
    List.intercalate [','] (entries.map fun kv =>
      jsonStringLit kv.1 ++ ':' :: jsonStringLit kv.2)
    ++ [braceClose]⟩

/-- `serde_json::to_string(filter)` as `global_search` computes it. -/
def serializeSearchFilter (filter : SearchFilter) : String :=
  serializeStringMap (searchFilterEntries filter)

/-- A search result category
(`SearchResultCategory<T>` from `src/search.rs`).  The typed entry records
(`content: Vec<T>`) are kept as raw JSON values in the embedding: no claim
reaches past the category shape. -/
structure SearchResultCategory where
  name : String
  fullsearch : String
  content : List Json
  more : Bool
  plus : Bool
deriving Repr

/-- `SearchResult` from `src/search.rs`: four optional categories keyed by
the portal's discriminators. -/
structure SearchResult where
  courses : Option SearchResultCategory
  users : Option SearchResultCategory
  institutes : Option SearchResultCategory
  messages : Option SearchResultCategory
deriving Repr

/-- The derived `Default` of `SearchResult`: all four categories absent. -/
def searchResultDefault : SearchResult := ⟨none, none, none, none⟩

/-- The derived deserializer of `SearchResultCategory`. -/
def decodeSearchResultCategory (j : Json) : Except String SearchResultCategory :=
  match j with
  | .obj fields => do
    let name ← reqStringField fields "name"
    let fullsearch ← reqStringField fields "fullsearch"
    let content ← reqArrField fields "content"
    let more ← reqBoolField fields "more"
    let plus ← reqBoolField fields "plus"
    .ok { name, fullsearch, content, more, plus }
  | _ => .error "invalid type, expected a map"

/-- An optional category field of the response object. -/
def optCategoryField (fields : List (String × Json)) (key : String) :
    Except String (Option SearchResultCategory) :=
  match jsonGet fields key with
  | none => .ok none
  | some .null => .ok none
  | some j => (decodeSearchResultCategory j).map some

/-- The derived deserializer of `SearchResult`. -/
def decodeSearchResult (j : Json) : Except String SearchResult :=
  match j with
  | .obj fields => do
    let courses ← optCategoryField fields "GlobalSearchCourses"
    let users ← optCategoryField fields "GlobalSearchUsers"
    let institutes ← optCategoryField fields "GlobalSearchInstitutes"
    let messages ← optCategoryField fields "GlobalSearchMessages"
    .ok { courses, users, institutes, messages }
  | _ => .error "invalid type, expected a map"

/-- `reqwest::StatusCode::is_success`: the 2xx class. -/
def statusIsSuccess (status : Nat) : Bool :=
  200 ≤ status && status < 300

/-- The response handling of `global_search` (src/search.rs lines 213–228),
from the point where status, content-type header and body text are known:
non-2xx fails; a missing or non-JSON content type fails; a body whose trim
is exactly `[]` yields the default result; anything else is
`serde_json`-decoded. -/
def globalSearchHandleResponse (status : Nat) (contentType : Option String)
    (body : String) : Except String SearchResult :=
  if ¬ statusIsSuccess status then
    .error ("Could not search. Status Code: " ++ toString status)
  else
    match contentType with
    | none => .error "Expected content-type"
    | some ct =>
      if ¬ strStartsWith ct "application/json" then
        .error ("Expected JSON. Got ContentType: " ++ ct)
      else if strTrim body = "[]" then .ok searchResultDefault
      else
        ((parseJson body >>= decodeSearchResult).mapError
          fun e => "Could not parse search response json: " ++ e)

/-! ## `strip_markings` (src/search.rs lines 235–238)

The source runs `Regex::replace_all` with the pattern
`(.*?)<mark>(.*?)</mark>(.*?)` and replacement `$1$2$3`: each
non-overlapping leftmost match keeps its lazy groups and drops the two
tags; the lazy trailing group always matches empty.  Because `.` does not
match a newline, a match pairs an opening tag with the first closing tag
after it only when no newline lies between them; text outside matches is
kept verbatim.  `findMarkMatch` computes exactly the leftmost such
pair. -/

/-- `"<mark>"`. -/
def markOpenPat : List Char := "<mark>".data

/-- `"</mark>"`. -/
def markClosePat : List Char := "</mark>".data

/-- Index of the first occurrence of `pat` in `s`, if any. -/
def findSub (pat : List Char) : List Char → Option Nat
  | [] => if pat.isPrefixOf ([] : List Char) then some 0 else none
  | c :: rest =>
    if pat.isPrefixOf (c :: rest) then some 0
    else (findSub pat rest).map (· + 1)

/-- The leftmost regex match: the first opening tag whose first following
closing tag is reachable without crossing a newline.  Returns the opening
tag's index and the closing tag's index relative to the text after the
opening tag. -/
def findMarkMatch : List Char → Option (Nat × Nat)
  | [] => none
  | c :: rest =>
    (if markOpenPat.isPrefixOf (c :: rest) then
      match findSub markClosePat ((c :: rest).drop 6) with
      | some j =>
        if (((c :: rest).drop 6).take j).all (· ≠ '\n') then some (0, j)
        else none
      | none => none
    else none).orElse fun _ =>
      (findMarkMatch rest).map fun p => (p.1 + 1, p.2)

/-- `replace_all` for the marking pattern: rewrite the leftmost match
(keeping the text of the lazy groups, dropping the tags) and continue
after it; the recursion is fuelled by the text length, which bounds the
number of matches. -/
def stripMarkingsAux : Nat → List Char → List Char
  | 0, s => s
  | Nat.succ fuel, s =>
    match findMarkMatch s with
    | none => s
    | some (i, j) =>
      let afterOpen := s.drop (i + 6)
      s.take i ++ afterOpen.take j ++ stripMarkingsAux fuel (afterOpen.drop (j + 7))

/-- `strip_markings` from `src/search.rs`. -/
def stripMarkings (str : String) : String :=
  ⟨stripMarkingsAux str.data.length str.data⟩

/-! ## Concrete test fixtures and proof-side helpers -/

/-- The net effect of the `query_comments` loop on the article once every
element parsed: each parsed comment in turn overwrites the fields. -/
def applyComments (article : NewsArticle) (cs : List NewsComment) : NewsArticle :=
  cs.foldl (fun art c => { art with n_comments := 1, comments := [c] }) article

/-- A well-formed `data-files` payload with one file entry. -/
def filesPayloadGood : String :=
  "[\x7b\"id\":\"f1\",\"name\":\"notes.pdf\",\"download_url\":\"du\",\"downloads\":\"12\",\"mime_type\":\"application/pdf\",\"icon\":\"file-pdf\",\"size\":\"2048\",\"author_url\":\"https://studip.example.com/dispatch.php/profile?username=alice\",\"author_name\":\"Alice\",\"author_id\":\"u1\",\"chdate\":1700000000,\"additionalColumns\":[],\"details_url\":\"d\",\"restrictedTermsOfUse\":false,\"actions\":\"a\",\"new\":true,\"isEditable\":false,\"isAccessible\":true\x7d]"

/-- A well-formed `data-folders` payload with one folder entry. -/
def foldersPayloadGood : String :=
  "[\x7b\"id\":\"fo1\",\"icon\":\"folder\",\"name\":\"Lectures\",\"url\":\"u\",\"user_id\":\"u1\",\"object_count\":3,\"author_name\":\"Alice\",\"author_url\":\"https://studip.example.com/dispatch.php/profile?username=alice\",\"chdate\":1690000000,\"actions\":\"a\",\"mime_type\":\"inode/directory\",\"permissions\":\"rw\",\"additionalColumns\":[]\x7d]"

/-- `filesPayloadGood` with its string-encoded `downloads` field replaced by
`"12a"`, which `str::parse::<usize>` rejects. -/
def filesPayloadBadDownloads : String :=
  "[\x7b\"id\":\"f1\",\"name\":\"notes.pdf\",\"download_url\":\"du\",\"downloads\":\"12a\",\"mime_type\":\"application/pdf\",\"icon\":\"file-pdf\",\"size\":\"2048\",\"author_url\":\"https://studip.example.com/dispatch.php/profile?username=alice\",\"author_name\":\"Alice\",\"author_id\":\"u1\",\"chdate\":1700000000,\"additionalColumns\":[],\"details_url\":\"d\",\"restrictedTermsOfUse\":false,\"actions\":\"a\",\"new\":true,\"isEditable\":false,\"isAccessible\":true\x7d]"

/-- `foldersPayloadGood` with its `object_count` replaced by `-3`: a
negative JSON integer for a `usize` field, which serde rejects with an
invalid-value error. -/
def foldersPayloadNegativeCount : String :=
  "[\x7b\"id\":\"fo1\",\"icon\":\"folder\",\"name\":\"Lectures\",\"url\":\"u\",\"user_id\":\"u1\",\"object_count\":-3,\"author_name\":\"Alice\",\"author_url\":\"https://studip.example.com/dispatch.php/profile?username=alice\",\"chdate\":1690000000,\"actions\":\"a\",\"mime_type\":\"inode/directory\",\"permissions\":\"rw\",\"additionalColumns\":[]\x7d]"

/-- The file author of the good payloads, tagged with the course source. -/
def fileAuthorAlice : User := ⟨"Alice", "alice", none, .Course "c42"⟩

/-- The fully converted contents of the good payloads. -/
def folderContentsGood : FolderContents :=
  ⟨[⟨⟨"fo1", "Lectures", 1690000000, fileAuthorAlice, "folder", "inode/directory"⟩,
     3, "rw"⟩],
   [⟨⟨"f1", "notes.pdf", 1700000000, fileAuthorAlice, "file-pdf", "application/pdf"⟩,
     2048, 12, false, true, false, true⟩]⟩

/-! ## Helper lemmas -/

lemma except_bind_ok {ε α β : Type} (a : α) (f : α → Except ε β) :
    (Except.ok a >>= f) = f a := rfl

lemma except_bind_error {ε α β : Type} (e : ε) (f : α → Except ε β) :
    ((Except.error e : Except ε α) >>= f) = Except.error e := rfl

lemma except_mapError_ok {ε ε' α : Type} (f : ε → ε') (a : α) :
    (Except.ok a : Except ε α).mapError f = Except.ok a := rfl

lemma except_mapError_error {ε ε' α : Type} (f : ε → ε') (e : ε) :
    (Except.error e : Except ε α).mapError f = Except.error (f e) := rfl

lemma ensureDefaultsRegistered_idem (s : RegState) :
    ensureDefaultsRegistered (ensureDefaultsRegistered s) =
      ensureDefaultsRegistered s := by
  unfold ensureDefaultsRegistered
  by_cases h : s.registered <;> simp [h]

lemma removeOccAux_nil (pat : List Char) (fuel : Nat) :
    removeOccAux pat fuel [] = [] := by
  cases fuel <;> rfl

lemma isPrefixOf_eq_false_of_not_contained {pat l : List Char}
    (h : ¬ pat <:+: l) : pat.isPrefixOf l = false := by
  by_contra hne
  have htrue : pat.isPrefixOf l = true := by
    revert hne
    cases pat.isPrefixOf l <;> simp
  exact h ((List.isPrefixOf_iff_prefix.mp htrue).isInfix)

lemma removeOccAux_of_not_contained (pat : List Char) :
    ∀ (fuel : Nat) (l : List Char), l.length ≤ fuel → ¬ pat <:+: l →
      removeOccAux pat fuel l = l := by
  intro fuel
  induction fuel with
  | zero =>
    intro l hl _
    cases l with
    | nil => exact removeOccAux_nil pat 0
    | cons c rest => simp only [List.length_cons] at hl; omega
  | succ fuel ih =>
    intro l hl hinf
    cases l with
    | nil => exact removeOccAux_nil pat _
    | cons c rest =>
      have hp := isPrefixOf_eq_false_of_not_contained hinf
      have hrest : ¬ pat <:+: rest := fun h => hinf (List.infix_cons h)
      simp only [removeOccAux, hp, Bool.false_and, Bool.false_eq_true,
        if_false, List.cons.injEq, true_and]
      exact ih rest (by simp only [List.length_cons] at hl; omega) hrest

lemma removeOcc_of_not_contained {pat l : List Char} (h : ¬ pat <:+: l) :
    removeOcc pat l = l :=
  removeOccAux_of_not_contained pat l.length l le_rfl h

lemma removeOccAux_append {pat l : List Char} (hpat : pat ≠ [])
    (h : ¬ pat <:+: l) :
    ∀ (fuel : Nat), (pat ++ l).length ≤ fuel →
      removeOccAux pat fuel (pat ++ l) = l := by
  intro fuel hl
  cases pat with
  | nil => exact absurd rfl hpat
  | cons p ps =>
    cases fuel with
    | zero => simp at hl
    | succ fuel =>
      have hp : (p :: ps).isPrefixOf ((p :: ps) ++ l) = true :=
        List.isPrefixOf_iff_prefix.mpr (List.prefix_append _ _)
      show removeOccAux (p :: ps) (fuel + 1) (p :: (ps ++ l)) = l
      simp only [removeOccAux]
      rw [show (p :: (ps ++ l)) = (p :: ps) ++ l from rfl, hp]
      simp only [List.isEmpty_cons, Bool.not_false, Bool.and_true, if_true]
      rw [List.drop_left]
      refine removeOccAux_of_not_contained _ _ _ ?_ h
      simp only [List.length_append, List.length_cons] at hl
      omega

lemma removeOcc_append {pat l : List Char} (hpat : pat ≠ [])
    (h : ¬ pat <:+: l) : removeOcc pat (pat ++ l) = l :=
  removeOccAux_append hpat h (pat ++ l).length le_rfl

lemma deriveModuleName_append (N : String) (h : ¬ navCoursePat <:+: N.data) :
    deriveModuleName ("nav_course_" ++ N) = N := by
  unfold deriveModuleName
  have hd : ("nav_course_" ++ N).data = navCoursePat ++ N.data :=
    String.data_append _ _
  rw [hd, removeOcc_append (by decide) h]

lemma queryComments_cons (article : NewsArticle) (e : CommentElem)
    (rest : List CommentElem) :
    queryComments article (e :: rest) =
      match parseCommentElem e with
      | .error msg => .error msg
      | .ok c =>
        queryComments { article with n_comments := 1, comments := [c] } rest := by
  cases hc : parseCommentElem e <;>
    simp [queryComments, List.foldlM_cons, hc, except_bind_ok,
      except_bind_error]

lemma queryComments_of_mapM :
    ∀ (es : List CommentElem) (article : NewsArticle) (cs : List NewsComment),
      es.mapM parseCommentElem = .ok cs →
      queryComments article es = .ok (applyComments article cs) := by
  intro es
  induction es with
  | nil =>
    intro article cs h
    simp only [List.mapM_nil] at h
    have : ([] : List NewsComment) = cs := by
      simpa [pure, Except.pure] using h
    subst this
    rfl
  | cons e rest ih =>
    intro article cs h
    rw [List.mapM_cons] at h
    cases hc : parseCommentElem e with
    | error msg =>
      rw [hc, except_bind_error] at h
      exact Except.noConfusion h
    | ok c0 =>
      rw [hc, except_bind_ok] at h
      cases hr : rest.mapM parseCommentElem with
      | error msg =>
        rw [hr, except_bind_error] at h
        exact Except.noConfusion h
      | ok cs' =>
        rw [hr, except_bind_ok] at h
        have hcs : c0 :: cs' = cs := by
          simpa [pure, Except.pure] using h
        subst hcs
        rw [queryComments_cons, hc]
        exact ih _ _ hr

lemma applyComments_getLast :
    ∀ (cs : List NewsComment) (article : NewsArticle) (c : NewsComment),
      cs.getLast? = some c →
      applyComments article cs =
        { article with n_comments := 1, comments := [c] } := by
  intro cs
  induction cs with
  | nil => intro article c h; simp at h
  | cons c0 rest ih =>
    intro article c h
    cases rest with
    | nil =>
      simp only [List.getLast?_singleton, Option.some.injEq] at h
      subst h
      rfl
    | cons c1 rest' =>
      rw [List.getLast?_cons_cons] at h
      exact ih _ c h

lemma findMarkMatch_of_not_contained :
    ∀ (s : List Char), ¬ markOpenPat <:+: s → findMarkMatch s = none := by
  intro s
  induction s with
  | nil => intro _; rfl
  | cons c rest ih =>
    intro h
    have hp := isPrefixOf_eq_false_of_not_contained h
    have hrest : ¬ markOpenPat <:+: rest := fun hi => h (List.infix_cons hi)
    simp [findMarkMatch, hp, ih hrest, Option.orElse]

lemma stripMarkingsAux_of_not_contained (fuel : Nat) (l : List Char)
    (h : ¬ markOpenPat <:+: l) : stripMarkingsAux fuel l = l := by
  cases fuel with
  | zero => rfl
  | succ n => simp only [stripMarkingsAux, findMarkMatch_of_not_contained l h]

lemma stripMarkings_of_not_contained (s : String)
    (h : ¬ markOpenPat <:+: s.data) : stripMarkings s = s := by
  unfold stripMarkings
  rw [stripMarkingsAux_of_not_contained _ _ h]

/-! ## Claim theorems -/

/-- C1 (counterexample): the claim says the registry holds three built-in
kinds (files, members, overview) after default registration, but
`register_default_course_modules` registers only `FileModule` and
`MembersModule`: after the registration triggered by the first
`Course::query_modules`, the registry has exactly the two keys `"files"`
and `"members"`, and `"overview"` is absent (the in-tree `OverviewModule`
is never registered, and its advertised name would be `"main"` anyway). -/
theorem defaultRegistration_lacks_overview :
    lookupReg (ensureDefaultsRegistered initRegState).registry "overview" = none
    ∧ (ensureDefaultsRegistered initRegState).registry.map Prod.fst =
        ["files", "members"] :=
  ⟨rfl, rfl⟩

/-- C1 (amended): after default-module registration has run (triggered by
the first `Course::query_modules`), the global registry contains exactly
the two built-in module kinds — files and members — each under its
advertised name and with its constructor; invoking the registration again
leaves the registration state (and hence the registry contents)
unchanged, the shallow rendering of the `OnceCell`'s exactly-once
guarantee for concurrent callers. -/
theorem defaultRegistration_registers_files_and_members_once :
    (ensureDefaultsRegistered initRegState).registry =
      [("files", fun data => CourseModule.fileModule data),
       ("members", fun data => CourseModule.membersModule data)]
    ∧ (∀ c tabs, ((queryModules initRegState c tabs).1).registry =
        [("files", fun data => CourseModule.fileModule data),
         ("members", fun data => CourseModule.membersModule data)])
    ∧ (∀ s : RegState,
        ensureDefaultsRegistered (ensureDefaultsRegistered s) =
          ensureDefaultsRegistered s) := by
  refine ⟨rfl, fun c tabs => rfl, ensureDefaultsRegistered_idem⟩

/-- C2 (counterexample): the claim fails for a registered module name that
itself contains the `"nav_course_"` prefix, because `str::replace`
removes every occurrence: a module registered as `"nav_course_x"` is never
discovered from the tab id `"nav_course_" ++ "nav_course_x"` (the derived
name is `"x"`), so the discovered sequence is empty where the claim
demands one instance. -/
theorem queryModules_misses_prefix_containing_name :
    lookupReg [("nav_course_x", fun data => CourseModule.custom "nav_course_x" data)]
        "nav_course_x" =
      some (fun data => CourseModule.custom "nav_course_x" data)
    ∧ queryModulesDiscover
        [("nav_course_x", fun data => CourseModule.custom "nav_course_x" data)]
        ⟨"c"⟩ ["nav_course_nav_course_x"] = [] :=
  ⟨rfl, rfl⟩

/-- C2 (amended): for every registered module name `N` (with constructor
`C`) that does not itself contain the substring `"nav_course_"`, a tab
whose element id is exactly `"nav_course_" ++ N` contributes exactly the
instance `C data` at that tab's position; a tab whose derived name is not
registered contributes nothing and does not fail; the result is exactly
the matching modules in tab order.  The third conjunct exercises both
cases on the default registry. -/
theorem queryModules_discovery_matches_registry :
    (∀ (reg : Registry) (data : CourseModuleData) (ts1 ts2 : List String)
        (N : String) (C : ModuleConstructor),
      lookupReg reg N = some C → ¬ navCoursePat <:+: N.data →
      queryModulesDiscover reg data (ts1 ++ ("nav_course_" ++ N) :: ts2) =
        queryModulesDiscover reg data ts1
          ++ C data :: queryModulesDiscover reg data ts2)
    ∧ (∀ (reg : Registry) (data : CourseModuleData) (ts1 ts2 : List String)
        (t : String),
      lookupReg reg (deriveModuleName t) = none →
      queryModulesDiscover reg data (ts1 ++ t :: ts2) =
        queryModulesDiscover reg data (ts1 ++ ts2))
    ∧ queryModulesDiscover (ensureDefaultsRegistered initRegState).registry
        ⟨"c1"⟩ ["nav_course_files", "nav_course_schedule", "nav_course_members"] =
        [CourseModule.fileModule ⟨"c1"⟩, CourseModule.membersModule ⟨"c1"⟩] := by
  refine ⟨?_, ?_, rfl⟩
  · intro reg data ts1 ts2 N C hlook hinf
    unfold queryModulesDiscover
    rw [List.filterMap_append, List.filterMap_cons]
    rw [deriveModuleName_append N hinf, hlook]
    rfl
  · intro reg data ts1 ts2 t hnone
    unfold queryModulesDiscover
    rw [List.filterMap_append, List.filterMap_cons, hnone,
      List.filterMap_append]
    rfl

/-- C3 (counterexample): two parts of the claim fail on the code.  One
malformed group header block is not skipped — it aborts the whole
`get_groups` call (the source `unwrap`s the regex captures), losing the
well-formed groups around it: the good header `"Team A (3/10)"` parses on
its own, yet the call over `[good, bad]` yields no result at all instead
of the remaining group.  And a missing info table does not make the
course-details operation fail: `get_course_details` on a page with no
info-table cells succeeds with default-initialized details instead of
erroring (the lookup argument is the identity, which a cell-less page
never consults). -/
theorem getGroups_aborts_on_bad_header :
    getGroups [⟨some "Team A (3/10)", false, none⟩, ⟨some "Team B", false, none⟩]
      = none
    ∧ parseGroupHeader ⟨some "Team A (3/10)", false, none⟩ =
        some ⟨"Team A", "nogroup", false, 3, 10⟩
    ∧ getCourseDetails (fun localized => localized) ⟨[], none⟩ =
        .ok courseDetailsDefault := by
  refine ⟨by decide, by decide, rfl⟩

/-- C3 (amended): a member-table row lacking a user link, username or
avatar yields no User record and is skipped — the table parses as if the
row were absent (second conjunct shows a concrete mixed table) — and a
missing files form fails the whole files operation with a missing-data
error; but the claim's other two parts fail on the code: a malformed
group header block is not skipped (it panics and aborts the whole
`get_groups` call), and a missing info table does not abort
`get_course_details` — with no info-table cells the fold returns the
default-initialized details (with whatever description the page carries)
as a success, whatever the injected localization lookup. -/
theorem member_rows_skipped_group_headers_abort :
    (∀ (src : ReferenceSource) (cap : Option String)
        (rs1 rs2 : List MemberRow) (bad : MemberRow),
      parseMemberRow src bad = none →
      parseMemberTable ⟨cap, rs1 ++ bad :: rs2⟩ src =
        parseMemberTable ⟨cap, rs1 ++ rs2⟩ src)
    ∧ parseMemberTable
        ⟨some "Studierende",
         [⟨some ⟨some "https://studip.example.com/profile?username=bob", some (some "avatar.png"), "Bob B"⟩⟩,
          ⟨none⟩,
          ⟨some ⟨some "https://studip.example.com/profile?username=eve", some (some "eve.png"), "Eve E"⟩⟩]⟩
        (.Course "c7") =
        (some "studierende",
         [⟨"Bob B", "bob", some "avatar.png", .Course "c7"⟩,
          ⟨"Eve E", "eve", some "eve.png", .Course "c7"⟩])
    ∧ (∀ (hs1 hs2 : List GroupHeader) (bad : GroupHeader),
      parseGroupHeader bad = none → getGroups (hs1 ++ bad :: hs2) = none)
    ∧ (∀ (course_id : String) (page : FilesPage), page.filesForm = none →
      parseIntoFolderContents course_id page =
        .error (.missingData "Could not find files table form"))
    ∧ (∀ (localToKey : String → String) (desc : Option String),
      getCourseDetails localToKey ⟨[], desc⟩ =
        .ok { courseDetailsDefault with description := desc.getD "" }) := by
  refine ⟨?_, by decide, ?_, ?_, ?_⟩
  · intro src cap rs1 rs2 bad hbad
    simp [parseMemberTable, List.filterMap_append, List.filterMap_cons, hbad]
  · intro hs1 hs2 bad hbad
    induction hs1 with
    | nil => simp [getGroups, hbad]
    | cons a hs1 ih =>
      cases ha : parseGroupHeader a with
      | none => simp [getGroups, ha]
      | some g => simp [getGroups, ha, ih]
  · intro course_id page h
    obtain ⟨ff⟩ := page
    simp only at h
    subst h
    rfl
  · intro localToKey desc
    cases desc <;> rfl

/-- C4: a course's `modules` field starts empty (`#[serde(skip)]` default),
and re-running discovery over the same fetched tab set replaces the whole
sequence rather than appending: the second run returns exactly the state
of the first (idempotent, not additive). -/
theorem modules_start_empty_and_discovery_idempotent :
    (∀ id, (mkCourse id).modules = [])
    ∧ (∀ (g : RegState) (c : Course) (tabIds : List String),
      queryModules (queryModules g c tabIds).1 (queryModules g c tabIds).2
          tabIds =
        queryModules g c tabIds) := by
  refine ⟨fun id => rfl, ?_⟩
  intro g c tabIds
  simp [queryModules, ensureDefaultsRegistered_idem]

lemma except_pure {ε α : Type} (a : α) : (pure a : Except ε α) = .ok a := rfl

set_option maxRecDepth 8000 in
/-- C5: the folder-listing parser's error classification and success path.
A missing form or missing attribute fails with the corresponding
missing-data error; a payload whose JSON does not decode — including a
string-encoded numeric field such as `downloads`/`size` that does not
parse as an integer, and a negative integer for the `usize` field
`object_count` — fails with a malformed-data error; when every stage
succeeds the fully converted `FolderContents` is returned.  The last
three conjuncts run the pipeline end to end on concrete payloads. -/
theorem parseIntoFolderContents_error_classification :
    (∀ course_id : String,
      parseIntoFolderContents course_id ⟨none⟩ =
        .error (.missingData "Could not find files table form"))
    ∧ (∀ (course_id : String) (dfo : Option String),
      parseIntoFolderContents course_id ⟨some ⟨none, dfo⟩⟩ =
        .error (.missingData "Could not get files"))
    ∧ (∀ (course_id df : String),
      parseIntoFolderContents course_id ⟨some ⟨some df, none⟩⟩ =
        .error (.missingData "Could not get folders"))
    ∧ (∀ (course_id df dfo : String) (e : String),
      (parseJson df >>= decodeTheirFiles) = .error e →
      parseIntoFolderContents course_id ⟨some ⟨some df, some dfo⟩⟩ =
        .error (.malformedData e))
    ∧ (∀ (course_id df dfo : String) (tfs : List TheirFile) (e : String),
      (parseJson df >>= decodeTheirFiles) = .ok tfs →
      (parseJson dfo >>= decodeTheirFolders) = .error e →
      parseIntoFolderContents course_id ⟨some ⟨some df, some dfo⟩⟩ =
        .error (.malformedData e))
    ∧ (∀ (course_id df dfo : String) (tfs : List TheirFile)
        (tfos : List TheirFolder) (folders : List Folder) (files : List File),
      (parseJson df >>= decodeTheirFiles) = .ok tfs →
      (parseJson dfo >>= decodeTheirFolders) = .ok tfos →
      (tfos.mapM fun f => tryFolderFromTheir f course_id) = .ok folders →
      (tfs.mapM fun f => tryFileFromTheir f course_id) = .ok files →
      parseIntoFolderContents course_id ⟨some ⟨some df, some dfo⟩⟩ =
        .ok ⟨folders, files⟩)
    ∧ parseIntoFolderContents "c42"
        ⟨some ⟨some filesPayloadBadDownloads, some foldersPayloadGood⟩⟩ =
        .error (.malformedData "invalid digit found in string")
    ∧ parseIntoFolderContents "c42"
        ⟨some ⟨some filesPayloadGood, some foldersPayloadNegativeCount⟩⟩ =
        .error (.malformedData
          "invalid value for field object_count, expected an unsigned integer")
    ∧ parseIntoFolderContents "c42"
        ⟨some ⟨some filesPayloadGood, some foldersPayloadGood⟩⟩ =
        .ok folderContentsGood := by
  refine ⟨fun cid => rfl, fun cid dfo => rfl, fun cid df => rfl, ?_, ?_, ?_,
    by rfl, by rfl, by rfl⟩
  · intro course_id df dfo e h
    simp only [parseIntoFolderContents, except_pure, except_bind_ok, h,
      except_mapError_error, except_bind_error]
  · intro course_id df dfo tfs e h1 h2
    simp only [parseIntoFolderContents, except_pure, except_bind_ok, h1, h2,
      except_mapError_ok, except_mapError_error, except_bind_error]
  · intro course_id df dfo tfs tfos folders files h1 h2 h3 h4
    simp only [parseIntoFolderContents, except_pure, except_bind_ok, h1, h2,
      h3, h4, except_mapError_ok]

/-- C6: a successful `query_comments` call whose page has at least one
comment element leaves exactly one comment — the last one parsed — with
`n_comments = 1`, however many elements the page has; with no comment
element the fields are untouched.  The last conjunct runs a concrete
two-comment page. -/
theorem queryComments_keeps_last_comment_only :
    (∀ (article : NewsArticle) (es : List CommentElem)
        (cs : List NewsComment) (c : NewsComment),
      es.mapM parseCommentElem = .ok cs → cs.getLast? = some c →
      queryComments article es =
        .ok { article with n_comments := 1, comments := [c] })
    ∧ (∀ article : NewsArticle, queryComments article [] = .ok article)
    ∧ queryComments ⟨"news42", 0, []⟩
        [⟨some "newscomment-c1", some " vor 3 Tagen ",
          some ⟨some "https://studip.example.com/dispatch.php/profile?username=bob",
                none, " Bob B "⟩, some "<p>Hi</p>"⟩,
         ⟨some "newscomment-c2", some "vor 1 Tag",
          some ⟨some "https://studip.example.com/dispatch.php/profile?username=eve",
                none, "Eve"⟩, some "<p>Yo</p>"⟩] =
        .ok ⟨"news42", 1,
          [⟨"c2", ⟨"Eve", "eve", none, .Unspecified⟩, "<p>Yo</p>", "vor 1 Tag"⟩]⟩ := by
  refine ⟨?_, fun article => rfl, by rfl⟩
  intro article es cs c h1 h2
  rw [queryComments_of_mapM es article cs h1,
    applyComments_getLast cs article c h2]

/-- C7: the group header pattern yields the literal counts when both are
shown and defaults `max_members` to 0 when the `/<max_members>` part is
absent: `"Team A (3/10)"` gives members 3 and max 10, `"Team B (5)"`
gives members 5 and max 0. -/
theorem group_header_counts_parsed :
    parseGroupHeader ⟨some "Team A (3/10)", false, none⟩ =
      some ⟨"Team A", "nogroup", false, 3, 10⟩
    ∧ parseGroupHeader ⟨some "Team B (5)", false, none⟩ =
      some ⟨"Team B", "nogroup", false, 5, 0⟩ := by
  refine ⟨by decide, by decide⟩

/-- C8: a successful global-search response whose body is exactly `[]`
yields a `SearchResult` with all four category fields absent, never an
error. -/
theorem globalSearch_empty_array_is_default
    (status : Nat) (ct body : String)
    (hstatus : statusIsSuccess status = true)
    (hct : strStartsWith ct "application/json" = true)
    (hbody : body = "[]") :
    globalSearchHandleResponse status (some ct) body =
      .ok ⟨none, none, none, none⟩ := by
  subst hbody
  simp [globalSearchHandleResponse, hstatus, hct,
    show strTrim "[]" = "[]" from rfl, searchResultDefault]

/-- C8 witness: the theorem at status 200, content type
`application/json; charset=utf-8` and body `[]`. -/
theorem globalSearch_empty_array_is_default_witness :
    globalSearchHandleResponse 200 (some "application/json; charset=utf-8")
      "[]" = .ok ⟨none, none, none, none⟩ :=
  globalSearch_empty_array_is_default 200 "application/json; charset=utf-8"
    "[]" rfl rfl rfl

/-- C9: serializing
`SearchFilter::Courses { semester: All, seminar_type_id: Some("1"), institute_id: Some("2123") }`
produces exactly the claimed JSON text, keys in that order, with the All
semester encoded as the empty string. -/
theorem searchFilter_courses_serialization :
    serializeSearchFilter (.Courses .All (some "1") (some "2123")) =
      "\x7b\"category\":\"GlobalSearchCourses\",\"semester\":\"\",\"seminar_type\":\"1\",\"institute\":\"2123\"\x7d" :=
  rfl

/-- C10: `strip_markings` removes one level of `<mark>` wrapping, is the
identity on text without such markup (both on the concrete example and
for every string with no `<mark>` occurrence), and unwraps nested tags
only partially. -/
theorem stripMarkings_examples_and_identity :
    stripMarkings "Mark<mark> Ole</mark> Peter" = "Mark Ole Peter"
    ∧ stripMarkings "Max Counterman" = "Max Counterman"
    ∧ stripMarkings "John <mark><mark>Connman</mark></mark>" =
        "John <mark>Connman</mark>"
    ∧ (∀ s : String, ¬ markOpenPat <:+: s.data → stripMarkings s = s) :=
  ⟨rfl, rfl, rfl, stripMarkings_of_not_contained⟩

end StudIp
